import Mathlib

/-!
Verification of the simulation engine of the worms-like artillery game.

The repository ships two near-identical versions of the `GameArena`
component:

* `src/src/components/GameArena.tsx` (called the *simple* variant below;
  its definitions carry a `GA` suffix), and
* `src/unnamed/part_000` (called the *rich* variant below; its
  definitions carry no suffix).

Both variants share most code verbatim (`getTerrainHeight`,
`moveCharacter`, `jumpCharacter`, `checkCollision`, `applyDamage`,
`updateCharacterGravity`, the weapon catalog and the turn-advance
callback); those are embedded once.  Where the variants diverge
(`destroyTerrain`, the grenade branch of `updateProjectiles`,
`fireWeapon`), both versions are embedded.

JavaScript numbers are modelled as real numbers; `Math.floor` is `Int.floor`,
`Math.sqrt` is `Real.sqrt`.  `Math.random()` results are modelled as
explicit oracle parameters.  The decorative particle system has no
gameplay effect and is not modelled beyond the explosion origin.
-/

namespace Worms

/-- The two teams (`'vegan' | 'meatLover'` in the source). -/
inductive Team where
  | vegan
  | meatLover
deriving DecidableEq, Repr

/-- Game phases (`'setup' | 'movement' | 'aiming' | 'firing' | 'gameOver'`). -/
inductive Phase where
  | setup
  | movement
  | aiming
  | firing
  | gameOver
deriving DecidableEq, Repr

/-- Movement direction accepted by `moveCharacter`. -/
inductive Direction where
  | left
  | right
deriving DecidableEq, Repr

/-- The `Character` interface of the source. -/
structure Character where
  id : String
  team : Team
  x : ℝ
  y : ℝ
  health : ℝ
  maxHealth : ℝ
  name : String
  vy : ℝ
  isGrounded : Bool
  fallDistance : ℝ
  movementLeft : ℤ
  hasJumped : Bool

/-- The `Projectile` interface of the source. -/
structure Projectile where
  x : ℝ
  y : ℝ
  vx : ℝ
  vy : ℝ
  type : String
  team : Team
  active : Bool
  bounces : ℤ
  fuseTime : ℤ

/-- An explosion record (origin and nominal radius; the decorative
particle list is visual-only and not modelled). -/
structure Explosion where
  x : ℝ
  y : ℝ
  radius : ℝ

/-- One entry of the static weapon catalog. -/
structure Weapon where
  id : String
  name : String
  damage : ℝ
  color : String
  explosionRadius : ℝ
  bounces : Bool
  fuseTime : ℤ

/-- The `VEGAN_WEAPONS` catalog (identical in both variants). -/
noncomputable def VEGAN_WEAPONS : List Weapon :=
  [ ⟨"bazooka", "Bazooka", 45, "#8B4513", 30, false, 0⟩,
    ⟨"grenade", "Grenade", 50, "#228B22", 35, true, 180⟩,
    ⟨"shotgun", "Shotgun", 25, "#4682B4", 15, false, 0⟩,
    ⟨"uzi", "Uzi", 15, "#696969", 10, false, 0⟩,
    ⟨"dynamite", "Dynamite", 75, "#DC143C", 50, false, 300⟩,
    ⟨"drill", "Drill", 20, "#FFD700", 60, false, 0⟩ ]

/-- The `MEAT_WEAPONS` catalog (same physics entries as `VEGAN_WEAPONS`). -/
noncomputable def MEAT_WEAPONS : List Weapon :=
  [ ⟨"bazooka", "Bazooka", 45, "#8B4513", 30, false, 0⟩,
    ⟨"grenade", "Grenade", 50, "#228B22", 35, true, 180⟩,
    ⟨"shotgun", "Shotgun", 25, "#4682B4", 15, false, 0⟩,
    ⟨"uzi", "Uzi", 15, "#696969", 10, false, 0⟩,
    ⟨"dynamite", "Dynamite", 75, "#DC143C", 50, false, 300⟩,
    ⟨"drill", "Drill", 20, "#FFD700", 60, false, 0⟩ ]

/-- `[...VEGAN_WEAPONS, ...MEAT_WEAPONS].find(w => w.id === t)`. -/
noncomputable def weaponFind (t : String) : Option Weapon :=
  (VEGAN_WEAPONS ++ MEAT_WEAPONS).find? (fun w => w.id == t)

/-- `weapon?.damage || dflt` : the weapon lookup damage with a JavaScript
falsy-number fallback. -/
noncomputable def weaponDamageD (t : String) (dflt : ℝ) : ℝ :=
  match weaponFind t with
  | some w => if w.damage = 0 then dflt else w.damage
  | none => dflt

/-- `weapon ? (weapon.explosionRadius || weapon.damage) : dflt`. -/
noncomputable def weaponRadiusD (t : String) (dflt : ℝ) : ℝ :=
  match weaponFind t with
  | some w => if w.explosionRadius = 0 then w.damage else w.explosionRadius
  | none => dflt

/-- `weapon?.fuseTime || 0`. -/
noncomputable def weaponFuse (t : String) : ℤ :=
  match weaponFind t with
  | some w => w.fuseTime
  | none => 0

/-- `getTerrainHeight(x, terrain)` (identical in both variants):
`const index = Math.floor(x / 5); return terrain[index] || 400`.
An out-of-range index yields `undefined` and a stored height of `0` is
falsy; both fall back to `400`. -/
noncomputable def getTerrainHeight (x : ℝ) (terrain : List ℝ) : ℝ :=
  let index : ℤ := ⌊x / 5⌋
  if h : 0 ≤ index ∧ index.toNat < terrain.length then
    let v := terrain.get ⟨index.toNat, h.2⟩
    if v = 0 then 400 else v
  else 400

/-- The per-sample body of the `destroyTerrain` loop of the rich variant
(`part_000`, lines 1107-1136): destructiveness constant 2.5, drill ×4
with an extra ×2 within 20 horizontal units, grenade ×1.8, result clamped
with `Math.min(·, 500)`. -/
noncomputable def destroySample (x y radius : ℝ) (weaponType : Option String)
    (terrainX h : ℝ) : ℝ :=
  let distance := Real.sqrt ((terrainX - x) ^ 2 + (h - y) ^ 2)
  if distance < radius then
    let a0 := (1 - distance / radius) * radius * 2.5
    let a1 :=
      if weaponType = some "drill" then
        (a0 * 4) * (if |terrainX - x| < 20 then 2 else 1)
      else a0
    let a2 := if weaponType = some "grenade" then a1 * 1.8 else a1
    min (h + a2) 500
  else h

/-- The per-sample body of the `destroyTerrain` loop of the simple variant
(`GameArena.tsx`, lines 852-869): destructiveness constant 1, drill ×2
with an extra ×1.5 within 15 horizontal units, no grenade bonus, and the
result combined with 500 by `Math.max` (sic). -/
noncomputable def destroySampleGA (x y radius : ℝ) (weaponType : Option String)
    (terrainX h : ℝ) : ℝ :=
  let distance := Real.sqrt ((terrainX - x) ^ 2 + (h - y) ^ 2)
  if distance < radius then
    let a0 := (1 - distance / radius) * radius
    let a1 :=
      if weaponType = some "drill" then
        (a0 * 2) * (if |terrainX - x| < 15 then 1.5 else 1)
      else a0
    max (h + a1) 500
  else h

/-- The `for (let i = 0; ...)` loop over terrain samples: index `i` maps the
sample at horizontal position `i*5` through `f (i*5)`. -/
noncomputable def destroyLoop (f : ℝ → ℝ → ℝ) : ℕ → List ℝ → List ℝ
  | _, [] => []
  | i, h :: rest => f (i * 5) h :: destroyLoop f (i + 1) rest

/-- `destroyTerrain(x, y, radius, weaponType)` of the rich variant
(`part_000`, lines 1100-1142). -/
noncomputable def destroyTerrain (terrain : List ℝ) (x y radius : ℝ)
    (weaponType : Option String) : List ℝ :=
  destroyLoop (destroySample x y radius weaponType) 0 terrain

/-- `destroyTerrain(x, y, radius, weaponType)` of the simple variant
(`GameArena.tsx`, lines 849-873). -/
noncomputable def destroyTerrainGA (terrain : List ℝ) (x y radius : ℝ)
    (weaponType : Option String) : List ℝ :=
  destroyLoop (destroySampleGA x y radius weaponType) 0 terrain

/-- The `GameState` interface of the source. -/
structure GameState where
  characters : List Character
  currentPlayer : ℕ
  currentTeam : Team
  turnTimeLeft : ℤ
  wind : ℝ
  gamePhase : Phase
  selectedWeapon : String
  power : ℝ
  angle : ℝ
  projectiles : List Projectile
  terrain : List ℝ
  explosions : List Explosion

/-- `applyDamage(explosionX, explosionY, damage, radius)` (identical in
both variants): every living character within `radius` of the epicenter
loses `Math.floor(damage * (1 - distance/radius))` health, floored at 0. -/
noncomputable def applyDamage (characters : List Character)
    (explosionX explosionY damage radius : ℝ) : List Character :=
  characters.map fun char =>
    if char.health ≤ 0 then char
    else
      let distance :=
        Real.sqrt ((char.x - explosionX) ^ 2 + (char.y - explosionY) ^ 2)
      if distance < radius then
        let damageMultiplier := 1 - distance / radius
        let actualDamage : ℤ := ⌊damage * damageMultiplier⌋
        { char with health := max 0 (char.health - actualDamage) }
      else char

/-- The damage dealt by an explosion of base damage `damage` and radius
`radius` at distance `distance` (the quantity subtracted by
`applyDamage` for a living character). -/
noncomputable def explosionDamage (damage radius distance : ℝ) : ℤ :=
  if distance < radius then ⌊damage * (1 - distance / radius)⌋ else 0

/-- The per-character body of the `applyDamage` map: `applyDamage` is
exactly `characters.map (damageOne ...)`, so each character's outcome
depends only on its own pre-impact state. -/
noncomputable def damageOne (explosionX explosionY damage radius : ℝ)
    (char : Character) : Character :=
  if char.health ≤ 0 then char
  else
    let distance :=
      Real.sqrt ((char.x - explosionX) ^ 2 + (char.y - explosionY) ^ 2)
    if distance < radius then
      let damageMultiplier := 1 - distance / radius
      let actualDamage : ℤ := ⌊damage * damageMultiplier⌋
      { char with health := max 0 (char.health - actualDamage) }
    else char

/-- `updateCharacterGravity(characters, terrain)` (identical in both
variants): gravity integration, landing snap and fall damage. -/
noncomputable def updateCharacterGravity (characters : List Character)
    (terrain : List ℝ) : List Character :=
  characters.map fun char =>
    if char.health ≤ 0 then char
    else
      let terrainHeight := getTerrainHeight char.x terrain
      let groundLevel := terrainHeight - 20
      if char.y < groundLevel then
        let newVy := char.vy + 0.8
        let newY := char.y + newVy
        let newFallDistance := char.fallDistance + |newVy|
        if groundLevel ≤ newY then
          let fallDamage : ℤ :=
            if 50 < newFallDistance then
              min ⌊(newFallDistance - 50) / 10⌋ 80
            else 0
          { char with
              y := groundLevel, vy := 0, isGrounded := true,
              fallDistance := 0,
              health := max 0 (char.health - fallDamage) }
        else
          { char with
              y := newY, vy := newVy, isGrounded := false,
              fallDistance := newFallDistance }
      else
        { char with
            y := groundLevel, vy := 0, isGrounded := true,
            fallDistance := 0 }

/-- `moveCharacter(direction)` (identical in both variants).  The guard
silently ignores the command when there is no current character, outside
the `movement` phase, or with no movement budget left. -/
noncomputable def moveCharacter (s : GameState) (direction : Direction) :
    GameState :=
  match s.characters.get? s.currentPlayer with
  | none => s
  | some currentChar =>
    if s.gamePhase ≠ Phase.movement ∨ currentChar.movementLeft ≤ 0 then s
    else
      let moveDistance : ℝ := 5
      let newX :=
        match direction with
        | Direction.left => max 20 (currentChar.x - moveDistance)
        | Direction.right => min 980 (currentChar.x + moveDistance)
      let terrainHeight := getTerrainHeight newX s.terrain
      let newY := terrainHeight - 20
      { s with
          characters := s.characters.map fun char =>
            if char.id = currentChar.id then
              { char with x := newX, y := newY,
                          movementLeft := char.movementLeft - 1 }
            else char }

/-- `jumpCharacter()` (identical in both variants).  The guard silently
ignores the command when there is no current character, outside the
`movement` phase, after the one jump per turn, or while airborne. -/
noncomputable def jumpCharacter (s : GameState) : GameState :=
  match s.characters.get? s.currentPlayer with
  | none => s
  | some currentChar =>
    if s.gamePhase ≠ Phase.movement ∨ currentChar.hasJumped = true ∨
        currentChar.isGrounded = false then s
    else
      { s with
          characters := s.characters.map fun char =>
            if char.id = currentChar.id then
              { char with vy := -12, isGrounded := false, hasJumped := true,
                          fallDistance := 0 }
            else char }

/-- The shared ballistic move of a grenade tick (both variants):
`vx += wind*0.02; vy += 0.5; x += vx; y += vy` with the updated
velocities. -/
noncomputable def ballistic (wind : ℝ) (p : Projectile) : Projectile :=
  { p with
      vx := p.vx + wind * 0.02,
      vy := p.vy + 0.5,
      x := p.x + (p.vx + wind * 0.02),
      y := p.y + (p.vy + 0.5) }

/-- A grenade tick that meets no bounce-triggering surface: after the
ballistic move it is strictly inside the side walls, strictly below the
top, and strictly above the terrain collision line. -/
noncomputable def noBounceAt (wind : ℝ) (terrain : List ℝ) (p : Projectile) :
    Prop :=
  let q := ballistic wind p
  0 < q.x ∧ q.x < 1000 ∧ 0 < q.y ∧ q.y < getTerrainHeight q.x terrain - 5

/-- The grenade branch of `updateProjectiles` in the rich variant
(`part_000`, lines 1305-1381): the fuse is checked *before* the tick's
physics; on `fuseTime <= 0` the grenade deactivates and the explosion
(particles, `destroyTerrain`, `applyDamage`) is applied at the current
position, returned here as the second component. -/
noncomputable def grenadeStep (wind : ℝ) (terrain : List ℝ) (p : Projectile) :
    Projectile × Option (ℝ × ℝ) :=
  if p.fuseTime ≤ 0 then ({ p with active := false }, some (p.x, p.y))
  else
    let newFuseTime := p.fuseTime - 1
    let newVx := p.vx + wind * 0.02
    let newVy := p.vy + 0.5
    let newX := p.x + newVx
    let newY := p.y + newVy
    let hitWall := newX ≤ 0 ∨ 1000 ≤ newX
    let vx1 := if hitWall then -newVx * 0.4 else newVx
    let x1 := if hitWall then (if newX ≤ 0 then 0 else 1000) else newX
    let hitTop := newY ≤ 0
    let vy1 := if hitTop then -newVy * 0.4 else newVy
    let y1 := if hitTop then 0 else newY
    let terrainHeight := getTerrainHeight x1 terrain
    let hitGround := terrainHeight - 5 ≤ y1
    let vy2 := if hitGround then -|vy1| * 0.4 else vy1
    let vx2 := if hitGround then vx1 * 0.6 else vx1
    let y2 := if hitGround then terrainHeight - 5 else y1
    ({ p with x := x1, y := y2, vx := vx2, vy := vy2,
              fuseTime := newFuseTime }, none)

/-- The grenade branch of `updateProjectiles` in the simple variant
(`GameArena.tsx`, lines 1036-1097): the tick's physics and bouncing run
first, then the fuse is decremented, and on `fuseTime <= 0` the grenade
deactivates and the explosion is applied at the post-move position. -/
noncomputable def grenadeStepGA (wind : ℝ) (terrain : List ℝ)
    (p : Projectile) : Projectile × Option (ℝ × ℝ) :=
  let newVx := p.vx + wind * 0.02
  let newVy := p.vy + 0.5
  let newX := p.x + newVx
  let newY := p.y + newVy
  let hitWall := newX ≤ 0 ∨ 1000 ≤ newX
  let vx1 := if hitWall then -newVx * 0.4 else newVx
  let x1 := if hitWall then (if newX ≤ 0 then 0 else 1000) else newX
  let hitTop := newY ≤ 0
  let vy1 := if hitTop then -newVy * 0.4 else newVy
  let y1 := if hitTop then 0 else newY
  let terrainHeight := getTerrainHeight x1 terrain
  let hitGround := terrainHeight - 5 ≤ y1
  let vy2 := if hitGround then -|vy1| * 0.4 else vy1
  let vx2 := if hitGround then vx1 * 0.6 else vx1
  let y2 := if hitGround then terrainHeight - 5 else y1
  let newFuseTime := p.fuseTime - 1
  if newFuseTime ≤ 0 then
    ({ p with x := x1, y := y2, vx := vx2, vy := vy2,
              fuseTime := newFuseTime, active := false }, some (x1, y2))
  else
    ({ p with x := x1, y := y2, vx := vx2, vy := vy2,
              fuseTime := newFuseTime }, none)

/-- The position part of the rich-variant grenade run: iterated first
components of `grenadeStep`. -/
noncomputable def grenadeRun (wind : ℝ) (terrain : List ℝ) (n : ℕ)
    (p : Projectile) : Projectile :=
  (fun q => (grenadeStep wind terrain q).1)^[n] p

/-- The position part of the simple-variant grenade run: iterated first
components of `grenadeStepGA`. -/
noncomputable def grenadeRunGA (wind : ℝ) (terrain : List ℝ) (n : ℕ)
    (p : Projectile) : Projectile :=
  (fun q => (grenadeStepGA wind terrain q).1)^[n] p

/-- The common bounce-free grenade tick: the ballistic move together with
the fuse decrement.  While no bounce-triggering surface is met, one tick
of either variant acts as `grenadeFlight` (plus, at fuse expiry, the
explosion). -/
noncomputable def grenadeFlight (wind : ℝ) (p : Projectile) : Projectile :=
  { ballistic wind p with fuseTime := p.fuseTime - 1 }

/-- The outcome of a `fireWeapon()` call: the immediately updated state,
the burst projectiles scheduled by `setTimeout` as (delay in ms,
projectile) pairs, and the delay of the scheduled turn-advance callback
(`none` when the command was ignored and nothing was scheduled). -/
structure FireResult where
  state : GameState
  spawns : List (ℕ × Projectile)
  turnDelay : Option ℕ

/-- `fireWeapon()` of the rich variant (`part_000`, lines 1443-1577).
`rand` is the `Math.random()` oracle; burst shot `i` consumes
`rand (4*i)` (angular spread), `rand (4*i+1)` (power scaling),
`rand (4*i+2)` and `rand (4*i+3)` (position jitter), in call order. -/
noncomputable def fireWeapon (s : GameState) (rand : ℕ → ℝ) : FireResult :=
  match s.characters.get? s.currentPlayer with
  | none => ⟨s, [], none⟩
  | some currentChar =>
    if s.gamePhase ≠ Phase.aiming then ⟨s, [], none⟩
    else
      let power := s.power / 100 * 25
      let angle := s.angle * Real.pi / 180
      let baseVx := Real.cos angle * power
      let baseVy := -Real.sin angle * power
      if s.selectedWeapon = "uzi" then
        let projectiles := (List.range 5).map fun i =>
          let spreadAngle := (rand (4 * i) - 0.5) * 0.3
          let spreadPower := 0.9 + rand (4 * i + 1) * 0.2
          ((80 * i,
            { x := currentChar.x + (rand (4 * i + 2) - 0.5) * 4
              y := currentChar.y - 10 + (rand (4 * i + 3) - 0.5) * 2
              vx := Real.cos (angle + spreadAngle) * power * spreadPower
              vy := -Real.sin (angle + spreadAngle) * power * spreadPower
              type := s.selectedWeapon
              team := currentChar.team
              active := true
              bounces := 0
              fuseTime := weaponFuse s.selectedWeapon }) : ℕ × Projectile)
        ⟨{ s with gamePhase := Phase.firing }, projectiles, some 4000⟩
      else
        let projectile : Projectile :=
          { x := currentChar.x
            y := currentChar.y - 10
            vx := baseVx
            vy := baseVy
            type := s.selectedWeapon
            team := currentChar.team
            active := true
            bounces := 0
            fuseTime := weaponFuse s.selectedWeapon }
        ⟨{ s with gamePhase := Phase.firing,
                  projectiles := s.projectiles ++ [projectile] }, [],
          some 3000⟩

/-- `fireWeapon()` of the simple variant (`GameArena.tsx`, lines
1158-1238): no burst handling, a single projectile for every weapon,
turn advance always scheduled after 3000 ms. -/
noncomputable def fireWeaponGA (s : GameState) : FireResult :=
  match s.characters.get? s.currentPlayer with
  | none => ⟨s, [], none⟩
  | some currentChar =>
    if s.gamePhase ≠ Phase.aiming then ⟨s, [], none⟩
    else
      let power := s.power / 100 * 25
      let angle := s.angle * Real.pi / 180
      let vx := Real.cos angle * power
      let vy := -Real.sin angle * power
      let projectile : Projectile :=
        { x := currentChar.x
          y := currentChar.y - 10
          vx := vx
          vy := vy
          type := s.selectedWeapon
          team := currentChar.team
          active := true
          bounces := 0
          fuseTime := weaponFuse s.selectedWeapon }
      ⟨{ s with gamePhase := Phase.firing,
                projectiles := s.projectiles ++ [projectile] }, [],
        some 3000⟩

/-- The `while (characters[next].health <= 0)` search of the turn-advance
callback, with explicit fuel (the callback runs it only when a living
character exists, in which case `characters.length` steps suffice). -/
noncomputable def findNextAlive (chars : List Character) :
    ℕ → ℕ → ℕ
  | 0, j => j
  | fuel + 1, j =>
    if 0 < ((chars.get? j).map Character.health).getD 0 then j
    else findNextAlive chars fuel ((j + 1) % chars.length)

/-- The turn-advance callback scheduled by `fireWeapon` (identical in both
variants, `GameArena.tsx` lines 1202-1236 and `part_000` lines
1541-1575).  `r` is the `Math.random()` oracle used for the new wind. -/
noncomputable def advanceTurn (s : GameState) (r : ℝ) : GameState :=
  let aliveCharacters := s.characters.filter fun c => decide (0 < c.health)
  let aliveVegans := aliveCharacters.filter fun c => c.team = Team.vegan
  let aliveMeatLovers :=
    aliveCharacters.filter fun c => c.team = Team.meatLover
  if aliveVegans.length = 0 then
    { s with gamePhase := Phase.gameOver, currentTeam := Team.meatLover }
  else if aliveMeatLovers.length = 0 then
    { s with gamePhase := Phase.gameOver, currentTeam := Team.vegan }
  else
    let nextPlayerIndex :=
      findNextAlive s.characters s.characters.length
        ((s.currentPlayer + 1) % s.characters.length)
    match s.characters.get? nextPlayerIndex with
    | none => s
    | some nextChar =>
      { s with
          currentPlayer := nextPlayerIndex,
          currentTeam := nextChar.team,
          gamePhase := Phase.movement,
          turnTimeLeft := 30,
          wind := r * 20 - 10,
          characters := s.characters.map fun char =>
            { char with movementLeft := 60, hasJumped := false } }

/-- Whether the character at index `j` is alive (`health > 0`),
used to state the dead-skipping property of `advanceTurn`. -/
noncomputable def aliveAt (chars : List Character) (j : ℕ) : Prop :=
  0 < ((chars.get? j).map Character.health).getD 0

/-- The health invariant of the data model: `health ∈ [0, maxHealth]`. -/
noncomputable def healthInv (c : Character) : Prop :=
  0 ≤ c.health ∧ c.health ≤ c.maxHealth

/-- The fall damage charged by `updateCharacterGravity` for a landing
with accumulated fall distance `fd`: zero up to 50 units, then
`min(floor((fd - 50) / 10), 80)`. -/
noncomputable def fallDamageOf (fd : ℝ) : ℤ :=
  if 50 < fd then min ⌊(fd - 50) / 10⌋ 80 else 0

/-- Concrete vegan character used by witnesses. -/
noncomputable def charA : Character :=
  { id := "v1", team := Team.vegan, x := 150, y := 360, health := 100,
    maxHealth := 100, name := "Kale", vy := 0, isGrounded := true,
    fallDistance := 0, movementLeft := 60, hasJumped := false }

/-- Concrete meat-lover character used by witnesses. -/
noncomputable def charB : Character :=
  { id := "m1", team := Team.meatLover, x := 650, y := 360, health := 50,
    maxHealth := 100, name := "Beef", vy := 0, isGrounded := true,
    fallDistance := 0, movementLeft := 60, hasJumped := false }

/-- Concrete game state used by witnesses: two living characters, one per
team, in the `movement` phase. -/
noncomputable def stateW : GameState :=
  { characters := [charA, charB], currentPlayer := 0,
    currentTeam := Team.vegan, turnTimeLeft := 30, wind := 0,
    gamePhase := Phase.movement, selectedWeapon := "bazooka", power := 50,
    angle := 45, projectiles := [], terrain := [], explosions := [] }

/-- Concrete game state used by witnesses: the two-character roster in
the `aiming` phase with the uzi selected. -/
noncomputable def stateAimUzi : GameState :=
  { stateW with gamePhase := Phase.aiming, selectedWeapon := "uzi" }

/-- Concrete grenade used by witnesses: launched inside a one-sample
terrain of height 1000000, so that a 180-tick free fall meets no
bounce-triggering surface. -/
noncomputable def grenadeW : Projectile :=
  { x := 2, y := 1, vx := 0, vy := 0, type := "grenade", team := Team.vegan,
    active := true, bounces := 0, fuseTime := 180 }

/-- C10: an accepted move command always costs one movement point, even
when the horizontal clamp leaves `x` unchanged.  For every state whose
current character exists, in the `movement` phase with budget left, the
move updates the current character to the clamped `x`, the re-snapped
`y`, and `movementLeft - 1`; in particular at `x = 20` moving left (or
`x = 980` moving right) the position is unchanged while a movement point
is still consumed. -/
theorem moveCharacter_blocked_still_consumes (s : GameState) (d : Direction)
    (c : Character) (hc : s.characters.get? s.currentPlayer = some c)
    (hphase : s.gamePhase = Phase.movement) (hml : 0 < c.movementLeft) :
    (moveCharacter s d).characters.get? s.currentPlayer =
      some { c with
        x := match d with
             | Direction.left => max 20 (c.x - 5)
             | Direction.right => min 980 (c.x + 5),
        y := getTerrainHeight
              (match d with
               | Direction.left => max 20 (c.x - 5)
               | Direction.right => min 980 (c.x + 5)) s.terrain - 20,
        movementLeft := c.movementLeft - 1 } ∧
    (c.x = 20 → d = Direction.left →
      ∃ cNew, (moveCharacter s d).characters.get? s.currentPlayer = some cNew ∧
        cNew.x = c.x ∧ cNew.movementLeft = c.movementLeft - 1) ∧
    (c.x = 980 → d = Direction.right →
      ∃ cNew, (moveCharacter s d).characters.get? s.currentPlayer = some cNew ∧
        cNew.x = c.x ∧ cNew.movementLeft = c.movementLeft - 1) := by
  have hguard : ¬(s.gamePhase ≠ Phase.movement ∨ c.movementLeft ≤ 0) := by
    push_neg
    exact ⟨hphase, hml⟩
  have hmain :
      (moveCharacter s d).characters.get? s.currentPlayer =
        some { c with
          x := match d with
               | Direction.left => max 20 (c.x - 5)
               | Direction.right => min 980 (c.x + 5),
          y := getTerrainHeight
                (match d with
                 | Direction.left => max 20 (c.x - 5)
                 | Direction.right => min 980 (c.x + 5)) s.terrain - 20,
          movementLeft := c.movementLeft - 1 } := by
    unfold moveCharacter
    rw [hc]
    dsimp only
    rw [if_neg hguard]
    simp only [List.get?_map, hc, Option.map_some]
    cases d <;> simp
  refine ⟨hmain, ?_, ?_⟩
  · intro hx hd
    subst hd
    refine ⟨_, hmain, ?_, rfl⟩
    simp only [hx]
    norm_num
  · intro hx hd
    subst hd
    refine ⟨_, hmain, ?_, rfl⟩
    simp only [hx]
    norm_num

/-- C10 witness: the concrete two-character state with the current
character moved to the left clamp boundary `x = 20`; the accepted move
leaves `x` at 20 and decrements `movementLeft` from 60 to 59. -/
theorem moveCharacter_blocked_still_consumes_witness :
    (({ stateW with characters := [{ charA with x := 20 }, charB] } :
        GameState).characters.get? 0 = some { charA with x := 20 }) ∧
    ∃ cNew,
      (moveCharacter
          { stateW with characters := [{ charA with x := 20 }, charB] }
          Direction.left).characters.get? 0 = some cNew ∧
        cNew.x = 20 ∧ cNew.movementLeft = 59 := by
  have hc : ({ stateW with characters := [{ charA with x := 20 }, charB] } :
      GameState).characters.get?
        ({ stateW with characters := [{ charA with x := 20 }, charB] } :
          GameState).currentPlayer = some { charA with x := 20 } := by
    simp [stateW]
  have h := moveCharacter_blocked_still_consumes
    { stateW with characters := [{ charA with x := 20 }, charB] }
    Direction.left { charA with x := 20 } hc (by simp [stateW])
    (by simp [charA])
  obtain ⟨-, h20, -⟩ := h
  obtain ⟨cNew, hget, hx, hml⟩ := h20 (by simp [charA]) rfl
  refine ⟨by simp [stateW], cNew, ?_, ?_, ?_⟩
  · simpa [stateW] using hget
  · simpa [charA] using hx
  · simpa [charA] using hml

/-- C8: invalid commands are silently ignored and leave the whole match
state unchanged: a move outside the `movement` phase or with
`movementLeft ≤ 0`, a jump outside the `movement` phase, after the
turn's jump, or while airborne, and a fire outside the `aiming` phase
(in either variant, which also schedules nothing). -/
theorem invalid_commands_ignored :
    (∀ (s : GameState) (d : Direction),
      s.gamePhase ≠ Phase.movement → moveCharacter s d = s) ∧
    (∀ (s : GameState) (d : Direction) (c : Character),
      s.characters.get? s.currentPlayer = some c → c.movementLeft ≤ 0 →
      moveCharacter s d = s) ∧
    (∀ s : GameState, s.gamePhase ≠ Phase.movement → jumpCharacter s = s) ∧
    (∀ (s : GameState) (c : Character),
      s.characters.get? s.currentPlayer = some c → c.hasJumped = true →
      jumpCharacter s = s) ∧
    (∀ (s : GameState) (c : Character),
      s.characters.get? s.currentPlayer = some c → c.isGrounded = false →
      jumpCharacter s = s) ∧
    (∀ (s : GameState) (rand : ℕ → ℝ),
      s.gamePhase ≠ Phase.aiming →
      fireWeapon s rand = ⟨s, [], none⟩) ∧
    (∀ s : GameState, s.gamePhase ≠ Phase.aiming →
      fireWeaponGA s = ⟨s, [], none⟩) := by
  refine ⟨?_, ?_, ?_, ?_, ?_, ?_, ?_⟩
  · intro s d h
    unfold moveCharacter
    cases hget : s.characters.get? s.currentPlayer with
    | none => rfl
    | some c =>
      dsimp only
      rw [if_pos (Or.inl h)]
  · intro s d c hget h
    unfold moveCharacter
    rw [hget]
    dsimp only
    rw [if_pos (Or.inr h)]
  · intro s h
    unfold jumpCharacter
    cases hget : s.characters.get? s.currentPlayer with
    | none => rfl
    | some c =>
      dsimp only
      rw [if_pos (Or.inl h)]
  · intro s c hget h
    unfold jumpCharacter
    rw [hget]
    dsimp only
    rw [if_pos (Or.inr (Or.inl h))]
  · intro s c hget h
    unfold jumpCharacter
    rw [hget]
    dsimp only
    rw [if_pos (Or.inr (Or.inr h))]
  · intro s rand h
    unfold fireWeapon
    cases hget : s.characters.get? s.currentPlayer with
    | none => rfl
    | some c =>
      dsimp only
      rw [if_pos h]
  · intro s h
    unfold fireWeaponGA
    cases hget : s.characters.get? s.currentPlayer with
    | none => rfl
    | some c =>
      dsimp only
      rw [if_pos h]

/-- C8 witness: on concrete states, a move and a jump issued in the
`aiming` phase, a move with an exhausted budget, a jump after jumping,
a jump while airborne, and fires (both variants) issued in the
`movement` phase all leave the state unchanged. -/
theorem invalid_commands_ignored_witness :
    moveCharacter { stateW with gamePhase := Phase.aiming } Direction.left =
      { stateW with gamePhase := Phase.aiming } ∧
    moveCharacter
        { stateW with characters := [{ charA with movementLeft := 0 }] }
        Direction.right =
      { stateW with characters := [{ charA with movementLeft := 0 }] } ∧
    jumpCharacter { stateW with gamePhase := Phase.aiming } =
      { stateW with gamePhase := Phase.aiming } ∧
    jumpCharacter
        { stateW with characters := [{ charA with hasJumped := true }] } =
      { stateW with characters := [{ charA with hasJumped := true }] } ∧
    jumpCharacter
        { stateW with characters := [{ charA with isGrounded := false }] } =
      { stateW with characters := [{ charA with isGrounded := false }] } ∧
    fireWeapon stateW (fun _ => 1 / 2) = ⟨stateW, [], none⟩ ∧
    fireWeaponGA stateW = ⟨stateW, [], none⟩ := by
  obtain ⟨h1, h2, h3, h4, h5, h6, h7⟩ := invalid_commands_ignored
  refine ⟨h1 _ _ (by simp [stateW]),
    h2 _ Direction.right { charA with movementLeft := 0 } (by simp [stateW])
      (le_refl 0),
    h3 _ (by simp [stateW]),
    h4 _ { charA with hasJumped := true } (by simp [stateW]) rfl,
    h5 _ { charA with isGrounded := false } (by simp [stateW]) rfl,
    h6 _ _ (by simp [stateW]), h7 _ (by simp [stateW])⟩

/-- Evaluation helper: terrain lookup on the empty height map falls back
to the default height 400. -/
theorem getTerrainHeight_nil (x : ℝ) : getTerrainHeight x [] = 400 := by
  unfold getTerrainHeight
  rw [dif_neg]
  simp

/-- C5: a landing resolved by `updateCharacterGravity` snaps the
character to ground level with `vy = 0`, `isGrounded = true` and
`fallDistance = 0`, charging `fallDamageOf` of the accumulated fall
distance at touchdown: 0 damage up to 50 units, otherwise
`min(floor((fd - 50) / 10), 80)`; in particular a 60-unit fall costs 1
and any fall of at least 850 units is capped at 80. -/
theorem fall_damage_on_landing (chars : List Character) (terrain : List ℝ)
    (i : ℕ) (c : Character) (hc : chars.get? i = some c)
    (halive : 0 < c.health)
    (hair : c.y < getTerrainHeight c.x terrain - 20)
    (hland : getTerrainHeight c.x terrain - 20 ≤ c.y + (c.vy + 0.8)) :
    (updateCharacterGravity chars terrain).get? i =
      some { c with
        y := getTerrainHeight c.x terrain - 20, vy := 0, isGrounded := true,
        fallDistance := 0,
        health :=
          max 0 (c.health - fallDamageOf (c.fallDistance + |c.vy + 0.8|)) } ∧
    (c.fallDistance + |c.vy + 0.8| ≤ 50 →
      fallDamageOf (c.fallDistance + |c.vy + 0.8|) = 0) ∧
    (50 < c.fallDistance + |c.vy + 0.8| →
      fallDamageOf (c.fallDistance + |c.vy + 0.8|) =
        min ⌊(c.fallDistance + |c.vy + 0.8| - 50) / 10⌋ 80) ∧
    (c.fallDistance + |c.vy + 0.8| = 60 →
      fallDamageOf (c.fallDistance + |c.vy + 0.8|) = 1) ∧
    (850 ≤ c.fallDistance + |c.vy + 0.8| →
      fallDamageOf (c.fallDistance + |c.vy + 0.8|) = 80) := by
  refine ⟨?_, ?_, ?_, ?_, ?_⟩
  · unfold updateCharacterGravity
    rw [List.get?_map, hc]
    rw [Option.map_some']
    rw [if_neg (not_le.mpr halive)]
    dsimp only
    rw [if_pos hair, if_pos hland]
    unfold fallDamageOf
    rfl
  · intro h
    unfold fallDamageOf
    rw [if_neg (not_lt.mpr h)]
  · intro h
    unfold fallDamageOf
    rw [if_pos h]
  · intro h
    unfold fallDamageOf
    rw [h, if_pos (by norm_num)]
    rw [show ((60 : ℝ) - 50) / 10 = 1 by norm_num, Int.floor_one]
    decide
  · intro h
    unfold fallDamageOf
    rw [if_pos (by linarith)]
    rw [min_eq_right]
    rw [Int.le_floor]
    push_cast
    linarith

/-- C5 witness: a concrete character at `x = 0` over the empty terrain
(ground level 380) lands this tick with accumulated fall distance 60 and
loses exactly 1 health (100 → 99), snapping to the ground. -/
theorem fall_damage_on_landing_witness :
    ∃ cNew,
      (updateCharacterGravity
          [{ charA with x := 0, y := 370, vy := 9.2, fallDistance := 50 }]
          []).get? 0 = some cNew ∧
      cNew.y = 380 ∧ cNew.vy = 0 ∧ cNew.isGrounded = true ∧
      cNew.fallDistance = 0 ∧ cNew.health = 99 := by
  have habs : |(9.2 : ℝ) + 0.8| = 10 := by
    rw [show (9.2 : ℝ) + 0.8 = 10 by norm_num]
    exact abs_of_nonneg (by norm_num)
  have h := fall_damage_on_landing
    [{ charA with x := 0, y := 370, vy := 9.2, fallDistance := 50 }] [] 0
    { charA with x := 0, y := 370, vy := 9.2, fallDistance := 50 } rfl
    (by simp [charA])
    (by rw [getTerrainHeight_nil]; show (370 : ℝ) < 400 - 20; norm_num)
    (by
      rw [getTerrainHeight_nil]
      show (400 : ℝ) - 20 ≤ 370 + (9.2 + 0.8)
      norm_num)
  obtain ⟨hmain, -, -, h60, -⟩ := h
  have hfd := h60 (by show (50 : ℝ) + |(9.2 : ℝ) + 0.8| = 60; rw [habs]; norm_num)
  rw [hfd] at hmain
  refine ⟨_, hmain, ?_, rfl, rfl, rfl, ?_⟩
  · show getTerrainHeight _ [] - 20 = 380
    rw [getTerrainHeight_nil]
    norm_num
  · show max 0 ((100 : ℝ) - (1 : ℤ)) = 99
    norm_num

/-- C4: radial damage falloff of `applyDamage` with base damage `D ≥ 0`
and radius `R > 0`: damage is applied simultaneously (a pointwise map of
the pre-impact roster); dead characters are unchanged; a living
character at distance `≥ R` is unchanged; at distance `< R` it loses
`floor(D * (1 - dist/R))` health floored at 0; exactly at the epicenter
it loses `floor(D)` (all of `D` up to floor rounding, whenever that much
health is available); and the damage amount is monotonically
non-increasing in distance. -/
theorem applyDamage_falloff (chars : List Character)
    (explosionX explosionY damage radius : ℝ) (i : ℕ) (c : Character)
    (hc : chars.get? i = some c) (hD : 0 ≤ damage) (hR : 0 < radius) :
    applyDamage chars explosionX explosionY damage radius =
      chars.map (damageOne explosionX explosionY damage radius) ∧
    (c.health ≤ 0 →
      (applyDamage chars explosionX explosionY damage radius).get? i =
        some c) ∧
    (0 < c.health →
      radius ≤ Real.sqrt ((c.x - explosionX) ^ 2 + (c.y - explosionY) ^ 2) →
      (applyDamage chars explosionX explosionY damage radius).get? i =
        some c) ∧
    (0 < c.health →
      Real.sqrt ((c.x - explosionX) ^ 2 + (c.y - explosionY) ^ 2) < radius →
      (applyDamage chars explosionX explosionY damage radius).get? i =
        some { c with
          health := max 0 (c.health - ⌊damage * (1 -
            Real.sqrt ((c.x - explosionX) ^ 2 + (c.y - explosionY) ^ 2) /
              radius)⌋) }) ∧
    (0 < c.health → c.x = explosionX → c.y = explosionY →
      (applyDamage chars explosionX explosionY damage radius).get? i =
        some { c with health := max 0 (c.health - ⌊damage⌋) } ∧
      ((⌊damage⌋ : ℝ) ≤ c.health →
        (applyDamage chars explosionX explosionY damage radius).get? i =
          some { c with health := c.health - ⌊damage⌋ })) ∧
    (∀ d1 d2 : ℝ, 0 ≤ d1 → d1 ≤ d2 →
      explosionDamage damage radius d2 ≤ explosionDamage damage radius d1) := by
  have hmap : applyDamage chars explosionX explosionY damage radius =
      chars.map (damageOne explosionX explosionY damage radius) := rfl
  have hget : ∀ c1 : Character,
      (applyDamage chars explosionX explosionY damage radius).get? i =
        some (damageOne explosionX explosionY damage radius c) := by
    intro _
    rw [hmap, List.get?_map, hc, Option.map_some']
  have hone := hget c
  refine ⟨hmap, ?_, ?_, ?_, ?_, ?_⟩
  · intro hdead
    rw [hone]
    unfold damageOne
    rw [if_pos hdead]
  · intro halive hfar
    rw [hone]
    unfold damageOne
    rw [if_neg (not_le.mpr halive)]
    dsimp only
    rw [if_neg (not_lt.mpr hfar)]
  · intro halive hnear
    rw [hone]
    unfold damageOne
    rw [if_neg (not_le.mpr halive)]
    dsimp only
    rw [if_pos hnear]
  · intro halive hx hy
    have hzero :
        Real.sqrt ((c.x - explosionX) ^ 2 + (c.y - explosionY) ^ 2) = 0 := by
      rw [hx, hy, sub_self, sub_self]
      norm_num
    have hmain :
        (applyDamage chars explosionX explosionY damage radius).get? i =
          some { c with health := max 0 (c.health - ⌊damage⌋) } := by
      rw [hone]
      unfold damageOne
      rw [if_neg (not_le.mpr halive)]
      dsimp only
      rw [hzero, if_pos hR]
      norm_num
    refine ⟨hmain, fun henough => ?_⟩
    rw [hmain]
    congr 1
    congr 1
    exact max_eq_right (by linarith)
  · intro d1 d2 h1 h12
    unfold explosionDamage
    by_cases h2r : d2 < radius
    · have h1r : d1 < radius := lt_of_le_of_lt h12 h2r
      rw [if_pos h2r, if_pos h1r]
      apply Int.floor_le_floor
      apply mul_le_mul_of_nonneg_left _ hD
      have : d1 / radius ≤ d2 / radius := (div_le_div_right hR).mpr h12
      linarith
    · rw [if_neg h2r]
      by_cases h1r : d1 < radius
      · rw [if_pos h1r]
        apply Int.floor_nonneg.mpr
        apply mul_nonneg hD
        have : d1 / radius < 1 := (div_lt_one hR).mpr h1r
        linarith
      · rw [if_neg h1r]

/-- C4 witness: an explosion at `(150, 360)` with base damage 45 and
radius 30 hits the concrete roster: the character exactly at the
epicenter drops from 100 to 55 health, while the character 500 units
away is unchanged. -/
theorem applyDamage_falloff_witness :
    (applyDamage [charA, charB] 150 360 45 30).get? 0 =
      some { charA with health := 55 } ∧
    (applyDamage [charA, charB] 150 360 45 30).get? 1 = some charB := by
  have hA := applyDamage_falloff [charA, charB] 150 360 45 30 0 charA rfl
    (by norm_num) (by norm_num)
  have hB := applyDamage_falloff [charA, charB] 150 360 45 30 1 charB rfl
    (by norm_num) (by norm_num)
  obtain ⟨-, -, -, -, hepi, -⟩ := hA
  obtain ⟨-, -, hfarB, -, -, -⟩ := hB
  constructor
  · have h45 : ((⌊(45 : ℝ)⌋ : ℤ) : ℝ) ≤ charA.health := by
      norm_num [charA]
    have h := (hepi (by norm_num [charA]) (by norm_num [charA])
      (by norm_num [charA])).2 h45
    rw [h]
    congr 1
    rw [show charA.health = (100 : ℝ) from rfl]
    norm_num
  · apply hfarB (by norm_num [charB])
    rw [show charB.x = (650 : ℝ) from rfl, show charB.y = (360 : ℝ) from rfl]
    norm_num
    rw [show (250000 : ℝ) = 500 ^ 2 by norm_num,
      Real.sqrt_sq (by norm_num : (0 : ℝ) ≤ 500)]
    norm_num

/-- Evaluation helper: the catalog lookup for the grenade. -/
theorem weaponFind_grenade :
    weaponFind "grenade" =
      some ⟨"grenade", "Grenade", 50, "#228B22", 35, true, 180⟩ := rfl

/-- Evaluation helper: the grenade explosion applies base damage 50
(`weapon?.damage || 50`). -/
theorem weaponDamageD_grenade : weaponDamageD "grenade" 50 = 50 := by
  unfold weaponDamageD
  rw [weaponFind_grenade]
  norm_num

/-- Helper: `damageOne` keeps health inside `[0, maxHealth]`. -/
theorem damageOne_healthInv (explosionX explosionY damage radius : ℝ)
    (hD : 0 ≤ damage) (c : Character) (hc : healthInv c) :
    healthInv (damageOne explosionX explosionY damage radius c) := by
  obtain ⟨h0, hmax⟩ := hc
  have hmax0 : (0 : ℝ) ≤ c.maxHealth := le_trans h0 hmax
  unfold damageOne
  by_cases hdead : c.health ≤ 0
  · rw [if_pos hdead]
    exact ⟨h0, hmax⟩
  · rw [if_neg hdead]
    dsimp only
    set d := Real.sqrt ((c.x - explosionX) ^ 2 + (c.y - explosionY) ^ 2)
      with hd
    by_cases hnear : d < radius
    · rw [if_pos hnear]
      have hdpos : 0 ≤ d := Real.sqrt_nonneg _
      have hrpos : 0 < radius := lt_of_le_of_lt hdpos hnear
      have hdiv0 : 0 ≤ d / radius := div_nonneg hdpos (le_of_lt hrpos)
      have hdiv1 : d / radius < 1 := (div_lt_one hrpos).mpr hnear
      have hdmg : (0 : ℤ) ≤ ⌊damage * (1 - d / radius)⌋ := by
        apply Int.floor_nonneg.mpr
        apply mul_nonneg hD
        linarith
      have hdmgR : (0 : ℝ) ≤ (⌊damage * (1 - d / radius)⌋ : ℤ) := by
        exact_mod_cast hdmg
      constructor
      · exact le_max_left 0 _
      · exact max_le hmax0 (by linarith)
    · rw [if_neg hnear]
      exact ⟨h0, hmax⟩

/-- C9: every health mutation keeps `health ∈ [0, maxHealth]`: explosion
damage via `applyDamage` (with the nonnegative base damage every call
site passes), the grenade-fuse explosion (which calls `applyDamage` with
base damage `weapon?.damage || 50 = 50`), and fall damage inside
`updateCharacterGravity`. -/
theorem health_in_range_preserved :
    (∀ (chars : List Character) (explosionX explosionY damage radius : ℝ),
      0 ≤ damage → (∀ c ∈ chars, healthInv c) →
      ∀ c1 ∈ applyDamage chars explosionX explosionY damage radius,
        healthInv c1) ∧
    (∀ (chars : List Character) (x y radius : ℝ),
      (∀ c ∈ chars, healthInv c) →
      ∀ c1 ∈ applyDamage chars x y (weaponDamageD "grenade" 50) radius,
        healthInv c1) ∧
    (∀ (chars : List Character) (terrain : List ℝ),
      (∀ c ∈ chars, healthInv c) →
      ∀ c1 ∈ updateCharacterGravity chars terrain, healthInv c1) := by
  have happly : ∀ (chars : List Character)
      (explosionX explosionY damage radius : ℝ),
      0 ≤ damage → (∀ c ∈ chars, healthInv c) →
      ∀ c1 ∈ applyDamage chars explosionX explosionY damage radius,
        healthInv c1 := by
    intro chars ex ey damage radius hD hinv c1 hmem
    have : applyDamage chars ex ey damage radius =
        chars.map (damageOne ex ey damage radius) := rfl
    rw [this] at hmem
    obtain ⟨c, hcmem, hc1⟩ := List.mem_map.mp hmem
    rw [← hc1]
    exact damageOne_healthInv ex ey damage radius hD c (hinv c hcmem)
  refine ⟨happly, ?_, ?_⟩
  · intro chars x y radius hinv c1 hmem
    exact happly chars x y (weaponDamageD "grenade" 50) radius
      (by rw [weaponDamageD_grenade]; norm_num) hinv c1 hmem
  · intro chars terrain hinv c1 hmem
    unfold updateCharacterGravity at hmem
    obtain ⟨c, hcmem, hc1⟩ := List.mem_map.mp hmem
    obtain ⟨h0, hmax⟩ := hinv c hcmem
    have hmax0 : (0 : ℝ) ≤ c.maxHealth := le_trans h0 hmax
    rw [← hc1]
    by_cases hdead : c.health ≤ 0
    · rw [if_pos hdead]
      exact ⟨h0, hmax⟩
    · rw [if_neg hdead]
      dsimp only
      by_cases hair : c.y < getTerrainHeight c.x terrain - 20
      · rw [if_pos hair]
        by_cases hland :
            getTerrainHeight c.x terrain - 20 ≤ c.y + (c.vy + 0.8)
        · rw [if_pos hland]
          set fd := c.fallDistance + |c.vy + 0.8| with hfd
          have hdmg : (0 : ℤ) ≤
              (if 50 < fd then min ⌊(fd - 50) / 10⌋ 80 else 0) := by
            by_cases h50 : 50 < fd
            · rw [if_pos h50]
              apply le_min
              · apply Int.floor_nonneg.mpr
                apply div_nonneg (by linarith) (by norm_num)
              · norm_num
            · rw [if_neg h50]
          have hdmgR : (0 : ℝ) ≤
              ((if 50 < fd then min ⌊(fd - 50) / 10⌋ 80 else 0 : ℤ) : ℝ) := by
            exact_mod_cast hdmg
          constructor
          · exact le_max_left 0 _
          · exact max_le hmax0 (by linarith)
        · rw [if_neg hland]
          exact ⟨h0, hmax⟩
      · rw [if_neg hair]
        exact ⟨h0, hmax⟩

/-- C9 witness: on the concrete roster with healths 100 and 50 (both
within `[0, 100]`), the characters remaining after a bazooka-strength
explosion at `(150, 360)` with `applyDamage`, after the grenade-fuse
explosion damage, and after a gravity tick, all keep
`health ∈ [0, maxHealth]`. -/
theorem health_in_range_preserved_witness :
    (∀ c1 ∈ applyDamage [charA, charB] 150 360 45 30, healthInv c1) ∧
    (∀ c1 ∈ applyDamage [charA, charB] 150 360 (weaponDamageD "grenade" 50)
        35, healthInv c1) ∧
    (∀ c1 ∈ updateCharacterGravity [charA, charB] [], healthInv c1) := by
  have hinv : ∀ c ∈ [charA, charB], healthInv c := by
    intro c hmem
    rcases List.mem_pair.mp hmem with h | h <;> subst h <;>
      constructor <;> norm_num [charA, charB, healthInv]
  obtain ⟨h1, h2, h3⟩ := health_in_range_preserved
  exact ⟨h1 [charA, charB] 150 360 45 30 (by norm_num) hinv,
    h2 [charA, charB] 150 360 35 hinv,
    h3 [charA, charB] [] hinv⟩

/-- Helper: pointwise description of the index-threading terrain loop. -/
theorem destroyLoop_get? (f : ℝ → ℝ → ℝ) :
    ∀ (l : List ℝ) (j i : ℕ),
      (destroyLoop f j l).get? i = (l.get? i).map fun h => f ((j + i : ℕ) * 5) h := by
  intro l
  induction l with
  | nil => intro j i; rfl
  | cons hd tl ih =>
    intro j i
    cases i with
    | zero => simp [destroyLoop]
    | succ n =>
      show (destroyLoop f (j + 1) tl).get? n = _
      rw [ih (j + 1) n]
      have : j + 1 + n = j + (n + 1) := by omega
      rw [this]
      rfl

/-- C1 (bug evaluation): the simple variant's `destroyTerrain` combines
the eroded sample with the arena floor using `Math.max` instead of
`Math.min`, so eroding a sample of height 499 inside a radius-10 blast
yields 509, above the documented 500 floor (its own comment says the
carve must not go below the canvas). -/
theorem destroyTerrainGA_breaks_floor_clamp :
    destroyTerrainGA [(499 : ℝ)] 0 499 10 none = [509] ∧ (500 : ℝ) < 509 := by
  constructor
  · show destroyLoop (destroySampleGA 0 499 10 none) 0 [(499 : ℝ)] = [509]
    simp only [destroyLoop, destroySampleGA]
    norm_num [Real.sqrt_zero]
    rw [if_neg (by simp : ¬((none : Option String) = some "drill"))]
    rw [max_eq_left (by norm_num : (500 : ℝ) ≤ 499 + 10)]
    norm_num
  · norm_num

/-- C2 counterexample: in the rich variant, a sample of height 499 hit
dead-center by a radius-10 blast is *not* increased by the formula
amount `(1 - d/radius) * radius * 2.5 = 25`: the result is clamped to
500, not 524. -/
theorem destroyTerrain_clamped_at_floor :
    destroyTerrain [(499 : ℝ)] 0 499 10 none = [500] ∧
    (500 : ℝ) ≠ 499 + (1 - 0 / 10) * 10 * 2.5 := by
  constructor
  · show destroyLoop (destroySample 0 499 10 none) 0 [(499 : ℝ)] = [500]
    simp only [destroyLoop, destroySample]
    norm_num [Real.sqrt_zero]
    rw [if_neg (by simp : ¬((none : Option String) = some "grenade"))]
    rw [if_neg (by simp : ¬((none : Option String) = some "drill"))]
    norm_num
  · norm_num

/-- C2 (amended): pointwise formula of the rich variant's
`destroyTerrain`.  A sample at Euclidean distance `d ≥ radius` from the
epicenter is unchanged; a sample at `d < radius` becomes
`min(h + (1 - d/radius) * radius * 2.5 * drillFactor * grenadeFactor,
500)` with `drillFactor = 4` for the drill (doubled again within 20
horizontal units of the epicenter) and `grenadeFactor = 1.8` for the
grenade; whenever the eroded value does not exceed the 500 floor, the
sample is increased by exactly the formula amount. -/
theorem destroyTerrain_formula (terrain : List ℝ) (x y radius : ℝ)
    (w : Option String) (i : ℕ) (h : ℝ) (hi : terrain.get? i = some h) :
    (radius ≤ Real.sqrt (((i : ℝ) * 5 - x) ^ 2 + (h - y) ^ 2) →
      (destroyTerrain terrain x y radius w).get? i = some h) ∧
    (Real.sqrt (((i : ℝ) * 5 - x) ^ 2 + (h - y) ^ 2) < radius →
      (destroyTerrain terrain x y radius w).get? i =
        some (min (h +
          (1 - Real.sqrt (((i : ℝ) * 5 - x) ^ 2 + (h - y) ^ 2) / radius) *
            radius * 2.5 *
          (if w = some "drill" then
              4 * (if |(i : ℝ) * 5 - x| < 20 then 2 else 1) else 1) *
          (if w = some "grenade" then 1.8 else 1)) 500)) ∧
    (Real.sqrt (((i : ℝ) * 5 - x) ^ 2 + (h - y) ^ 2) < radius →
      h + (1 - Real.sqrt (((i : ℝ) * 5 - x) ^ 2 + (h - y) ^ 2) / radius) *
            radius * 2.5 *
          (if w = some "drill" then
              4 * (if |(i : ℝ) * 5 - x| < 20 then 2 else 1) else 1) *
          (if w = some "grenade" then 1.8 else 1) ≤ 500 →
      (destroyTerrain terrain x y radius w).get? i =
        some (h +
          (1 - Real.sqrt (((i : ℝ) * 5 - x) ^ 2 + (h - y) ^ 2) / radius) *
            radius * 2.5 *
          (if w = some "drill" then
              4 * (if |(i : ℝ) * 5 - x| < 20 then 2 else 1) else 1) *
          (if w = some "grenade" then 1.8 else 1))) := by
  have hbase : (destroyTerrain terrain x y radius w).get? i =
      some (destroySample x y radius w ((i : ℝ) * 5) h) := by
    show (destroyLoop (destroySample x y radius w) 0 terrain).get? i = _
    rw [destroyLoop_get? (destroySample x y radius w) terrain 0 i, hi,
      Option.map_some']
    norm_num
  set d := Real.sqrt (((i : ℝ) * 5 - x) ^ 2 + (h - y) ^ 2) with hd
  have hsample : ∀ hlt : d < radius,
      destroySample x y radius w ((i : ℝ) * 5) h =
        min (h + (1 - d / radius) * radius * 2.5 *
          (if w = some "drill" then
              4 * (if |(i : ℝ) * 5 - x| < 20 then 2 else 1) else 1) *
          (if w = some "grenade" then 1.8 else 1)) 500 := by
    intro hlt
    unfold destroySample
    rw [← hd]
    dsimp only
    rw [if_pos hlt]
    by_cases hdr : w = some "drill"
    · have hgr : ¬ w = some "grenade" := by
        rw [hdr]; simp
      rw [if_pos hdr, if_neg hgr, if_pos hdr, if_neg hgr]
      congr 1
      ring
    · rw [if_neg hdr, if_neg hdr]
      by_cases hgr : w = some "grenade"
      · rw [if_pos hgr, if_pos hgr]
        congr 1
        ring
      · rw [if_neg hgr, if_neg hgr]
        congr 1
        ring
  refine ⟨?_, ?_, ?_⟩
  · intro hfar
    rw [hbase]
    unfold destroySample
    rw [← hd, if_neg (not_lt.mpr hfar)]
  · intro hnear
    rw [hbase, hsample hnear]
  · intro hnear hfits
    rw [hbase, hsample hnear, min_eq_left hfits]

/-- C2 witness: a sample of height 400 hit dead-center by a radius-10
blast with no weapon bonus is increased by exactly
`(1 - 0/10) * 10 * 2.5 = 25`, to 425. -/
theorem destroyTerrain_formula_witness :
    (destroyTerrain [(400 : ℝ)] 0 400 10 none).get? 0 = some 425 := by
  have hzero :
      Real.sqrt ((((0 : ℕ) : ℝ) * 5 - 0) ^ 2 + ((400 : ℝ) - 400) ^ 2) = 0 := by
    norm_num
  obtain ⟨-, -, hfits⟩ :=
    destroyTerrain_formula [(400 : ℝ)] 0 400 10 none 0 400 rfl
  rw [hfits (by rw [hzero]; norm_num)
    (by
      rw [hzero]
      rw [if_neg (by simp : ¬((none : Option String) = some "drill"))]
      rw [if_neg (by simp : ¬((none : Option String) = some "grenade"))]
      norm_num)]
  rw [hzero]
  rw [if_neg (by simp : ¬((none : Option String) = some "drill"))]
  rw [if_neg (by simp : ¬((none : Option String) = some "grenade"))]
  norm_num

/-- Helper: the cyclic dead-skipping search returns the first living
index at cyclic offset `k` from its start, provided a living index is
reachable within the available fuel. -/
theorem findNextAlive_spec (chars : List Character) :
    ∀ (fuel j : ℕ), j < chars.length →
      (∃ k < fuel, aliveAt chars ((j + k) % chars.length)) →
      ∃ k < fuel, findNextAlive chars fuel j = (j + k) % chars.length ∧
        aliveAt chars ((j + k) % chars.length) ∧
        ∀ m < k, ¬ aliveAt chars ((j + m) % chars.length) := by
  intro fuel
  induction fuel with
  | zero =>
    intro j _ hex
    obtain ⟨k, hk, -⟩ := hex
    omega
  | succ fuel ih =>
    intro j hj hex
    by_cases halive : aliveAt chars j
    · have halive1 : 0 < ((chars.get? j).map Character.health).getD 0 := halive
      refine ⟨0, Nat.succ_pos fuel, ?_, ?_, ?_⟩
      · show findNextAlive chars (fuel + 1) j = _
        unfold findNextAlive
        rw [if_pos halive1, Nat.add_zero, Nat.mod_eq_of_lt hj]
      · rw [Nat.add_zero, Nat.mod_eq_of_lt hj]
        exact halive
      · omega
    · have halive1 : ¬ 0 < ((chars.get? j).map Character.health).getD 0 :=
        fun h => halive h
      have hn : 0 < chars.length := by omega
      have hj1 : (j + 1) % chars.length < chars.length := Nat.mod_lt _ hn
      have hex1 : ∃ k < fuel,
          aliveAt chars (((j + 1) % chars.length + k) % chars.length) := by
        obtain ⟨k, hk, halivek⟩ := hex
        have hk0 : k ≠ 0 := by
          intro h0
          rw [h0, Nat.add_zero, Nat.mod_eq_of_lt hj] at halivek
          exact halive halivek
        refine ⟨k - 1, by omega, ?_⟩
        rw [Nat.mod_add_mod]
        have : j + 1 + (k - 1) = j + k := by omega
        rw [this]
        exact halivek
      obtain ⟨k3, hk3, hres, halive3, hmin3⟩ :=
        ih ((j + 1) % chars.length) hj1 hex1
      refine ⟨k3 + 1, by omega, ?_, ?_, ?_⟩
      · show findNextAlive chars (fuel + 1) j = _
        unfold findNextAlive
        rw [if_neg halive1, hres, Nat.mod_add_mod]
        have : j + 1 + k3 = j + (k3 + 1) := by omega
        rw [this]
      · rw [Nat.mod_add_mod] at halive3
        have : j + 1 + k3 = j + (k3 + 1) := by omega
        rw [this] at halive3
        exact halive3
      · intro m hm
        cases m with
        | zero =>
          rw [Nat.add_zero, Nat.mod_eq_of_lt hj]
          exact halive
        | succ m1 =>
          have h1 := hmin3 m1 (by omega)
          rw [Nat.mod_add_mod] at h1
          have : j + 1 + m1 = j + (m1 + 1) := by omega
          rw [this] at h1
          exact h1

/-- Helper: the cyclic walk from any start reaches any target index of a
nonempty range within `n` steps. -/
theorem exists_cyclic_hit (n i j : ℕ) (hi : i < n) (hj : j < n) :
    ∃ k < n, (j + k) % n = i := by
  by_cases hle : j ≤ i
  · exact ⟨i - j, by omega, by rw [show j + (i - j) = i by omega,
      Nat.mod_eq_of_lt hi]⟩
  · refine ⟨n - j + i, by omega, ?_⟩
    rw [show j + (n - j + i) = n + i by omega, Nat.add_mod_left,
      Nat.mod_eq_of_lt hi]

/-- Helper: a nonempty living-team filter yields a living index. -/
theorem exists_alive_index (chars : List Character) (t : Team)
    (hne : ((chars.filter fun c => decide (0 < c.health)).filter
        fun c => decide (c.team = t)).length ≠ 0) :
    ∃ i < chars.length, aliveAt chars i := by
  have hpos : 0 < ((chars.filter fun c => decide (0 < c.health)).filter
      fun c => decide (c.team = t)).length := Nat.pos_of_ne_zero hne
  obtain ⟨c, hc⟩ := List.exists_mem_of_length_pos hpos
  have hc1 : c ∈ chars.filter fun c => decide (0 < c.health) :=
    List.mem_of_mem_filter hc
  have hcm : c ∈ chars := List.mem_of_mem_filter hc1
  have hch : 0 < c.health := by
    have := List.of_mem_filter hc1
    exact of_decide_eq_true this
  obtain ⟨i, hi⟩ := List.mem_iff_get?.mp hcm
  have hilen : i < chars.length := by
    by_contra hge
    rw [List.get?_eq_none.mpr (le_of_not_lt hge)] at hi
    exact Option.noConfusion hi
  refine ⟨i, hilen, ?_⟩
  unfold aliveAt
  rw [hi]
  exact hch

/-- C7: the turn-advance callback.  If the vegan team has no living
member the phase becomes `gameOver` with meat-lover recorded as winner
(in `currentTeam`); otherwise if the meat-lover team has no living
member, `gameOver` with vegan as winner; otherwise `currentPlayer`
advances cyclically to the next index with `health > 0`, skipping
exactly the dead ones in between, that character's `movementLeft` is
reset to 60 and `hasJumped` to `false`, the wind is re-rolled to
`r * 20 - 10`, and the phase returns to `movement`. -/
theorem advanceTurn_spec (s : GameState) (r : ℝ) :
    (((s.characters.filter fun c => decide (0 < c.health)).filter
        fun c => decide (c.team = Team.vegan)).length = 0 →
      advanceTurn s r =
        { s with gamePhase := Phase.gameOver,
                 currentTeam := Team.meatLover }) ∧
    (((s.characters.filter fun c => decide (0 < c.health)).filter
        fun c => decide (c.team = Team.vegan)).length ≠ 0 →
      ((s.characters.filter fun c => decide (0 < c.health)).filter
        fun c => decide (c.team = Team.meatLover)).length = 0 →
      advanceTurn s r =
        { s with gamePhase := Phase.gameOver, currentTeam := Team.vegan }) ∧
    (((s.characters.filter fun c => decide (0 < c.health)).filter
        fun c => decide (c.team = Team.vegan)).length ≠ 0 →
      ((s.characters.filter fun c => decide (0 < c.health)).filter
        fun c => decide (c.team = Team.meatLover)).length ≠ 0 →
      ∃ k < s.characters.length,
        (advanceTurn s r).currentPlayer =
          (s.currentPlayer + 1 + k) % s.characters.length ∧
        aliveAt s.characters ((advanceTurn s r).currentPlayer) ∧
        (∀ m < k, ¬ aliveAt s.characters
          ((s.currentPlayer + 1 + m) % s.characters.length)) ∧
        (advanceTurn s r).gamePhase = Phase.movement ∧
        (advanceTurn s r).wind = r * 20 - 10 ∧
        (advanceTurn s r).turnTimeLeft = 30 ∧
        ∃ cNew, (advanceTurn s r).characters.get?
            ((advanceTurn s r).currentPlayer) = some cNew ∧
          cNew.movementLeft = 60 ∧ cNew.hasJumped = false ∧
          (advanceTurn s r).currentTeam = cNew.team) := by
  refine ⟨?_, ?_, ?_⟩
  · intro hv
    unfold advanceTurn
    rw [if_pos hv]
  · intro hv hm
    unfold advanceTurn
    rw [if_neg hv, if_pos hm]
  · intro hv hm
    obtain ⟨i0, hi0len, hi0alive⟩ :=
      exists_alive_index s.characters Team.vegan hv
    have hn : 0 < s.characters.length := by omega
    have hj0 : (s.currentPlayer + 1) % s.characters.length <
        s.characters.length := Nat.mod_lt _ hn
    obtain ⟨khit, hkhit, hhit⟩ := exists_cyclic_hit s.characters.length i0
      ((s.currentPlayer + 1) % s.characters.length) hi0len hj0
    obtain ⟨k, hklt, hkres, hkalive, hkmin⟩ :=
      findNextAlive_spec s.characters s.characters.length
        ((s.currentPlayer + 1) % s.characters.length) hj0
        ⟨khit, hkhit, by rw [hhit]; exact hi0alive⟩
    have hidx : findNextAlive s.characters s.characters.length
        ((s.currentPlayer + 1) % s.characters.length) =
        (s.currentPlayer + 1 + k) % s.characters.length := by
      rw [hkres, Nat.mod_add_mod]
    have hkalive1 : aliveAt s.characters
        ((s.currentPlayer + 1 + k) % s.characters.length) := by
      rw [Nat.mod_add_mod] at hkalive
      exact hkalive
    obtain ⟨cNext, hcNext⟩ : ∃ cNext, s.characters.get?
        ((s.currentPlayer + 1 + k) % s.characters.length) = some cNext := by
      unfold aliveAt at hkalive1
      cases hg : s.characters.get?
          ((s.currentPlayer + 1 + k) % s.characters.length) with
      | none => rw [hg] at hkalive1; norm_num at hkalive1
      | some c => exact ⟨c, rfl⟩
    have hstep : advanceTurn s r =
        { s with
            currentPlayer := (s.currentPlayer + 1 + k) % s.characters.length,
            currentTeam := cNext.team,
            gamePhase := Phase.movement,
            turnTimeLeft := 30,
            wind := r * 20 - 10,
            characters := s.characters.map fun char =>
              { char with movementLeft := 60, hasJumped := false } } := by
      unfold advanceTurn
      rw [if_neg hv, if_neg hm]
      dsimp only
      rw [hidx, hcNext]
    refine ⟨k, hklt, ?_, ?_, ?_, ?_, ?_, ?_, ?_⟩
    · rw [hstep]
    · rw [hstep]
      exact hkalive1
    · intro m hm1
      have h := hkmin m hm1
      rw [Nat.mod_add_mod] at h
      exact h
    · rw [hstep]
    · rw [hstep]
    · rw [hstep]
    · refine ⟨{ cNext with movementLeft := 60, hasJumped := false }, ?_,
        rfl, rfl, ?_⟩
      · rw [hstep]
        dsimp only
        rw [List.get?_map, hcNext, Option.map_some']
      · rw [hstep]

/-- C7 witness: on the concrete two-character state (one living
character per team, current player 0), the turn advance hands the turn
to index 1, the other team's character, with `movementLeft` reset to 60,
`hasJumped` to `false`, and the phase back to `movement`. -/
theorem advanceTurn_spec_witness :
    (advanceTurn stateW (1 / 2)).currentPlayer = 1 ∧
    (advanceTurn stateW (1 / 2)).gamePhase = Phase.movement ∧
    ∃ cNew, (advanceTurn stateW (1 / 2)).characters.get?
        ((advanceTurn stateW (1 / 2)).currentPlayer) = some cNew ∧
      cNew.movementLeft = 60 ∧ cNew.hasJumped = false ∧
      (advanceTurn stateW (1 / 2)).currentTeam = cNew.team := by
  have hv : ((stateW.characters.filter fun c => decide (0 < c.health)).filter
      fun c => decide (c.team = Team.vegan)).length ≠ 0 := by
    simp [stateW, charA, charB, List.filter]
  have hm : ((stateW.characters.filter fun c => decide (0 < c.health)).filter
      fun c => decide (c.team = Team.meatLover)).length ≠ 0 := by
    simp [stateW, charA, charB, List.filter]
  obtain ⟨-, -, h3⟩ := advanceTurn_spec stateW (1 / 2)
  obtain ⟨k, hklt, hcur, halive, hmin, hphase, -, -, hnew⟩ := h3 hv hm
  have hlen : stateW.characters.length = 2 := by simp [stateW]
  have hcur0 : stateW.currentPlayer = 0 := rfl
  have hk : k = 0 := by
    have hk01 : k = 0 ∨ k = 1 := by
      rw [hlen] at hklt
      omega
    rcases hk01 with h | h
    · exact h
    · exfalso
      subst h
      have h0 := hmin 0 (by omega)
      apply h0
      rw [hcur0, hlen]
      show aliveAt stateW.characters (1 % 2)
      have h12 : 1 % 2 = 1 := by norm_num
      rw [h12]
      show 0 < ((stateW.characters.get? 1).map Character.health).getD 0
      simp [stateW, charB]
  rw [hk] at hcur
  rw [hcur0, hlen] at hcur
  norm_num at hcur
  exact ⟨hcur, hphase, hnew⟩

/-- C6 counterexample: the simple variant has no burst handling — a fire
command issued in the aiming phase with the uzi selected adds exactly
one projectile to the state and schedules no further spawns. -/
theorem fireWeaponGA_uzi_fires_single :
    (fireWeaponGA stateAimUzi).state.projectiles.length = 1 ∧
    (fireWeaponGA stateAimUzi).spawns = [] := by
  have hc : stateAimUzi.characters.get? stateAimUzi.currentPlayer =
      some charA := by
    simp [stateAimUzi, stateW]
  have hphase : ¬ stateAimUzi.gamePhase ≠ Phase.aiming := by
    simp [stateAimUzi, stateW]
  constructor
  · unfold fireWeaponGA
    rw [hc]
    dsimp only
    rw [if_neg hphase]
    simp [stateAimUzi, stateW]
  · unfold fireWeaponGA
    rw [hc]
    dsimp only
    rw [if_neg hphase]

/-- C6 (amended, rich variant): a fire command in the aiming phase with
the uzi selected schedules exactly 5 projectiles at 80 ms intervals;
shot `i` carries its own angular spread `(rand(4i) - 0.5) * 0.3`, inside
`±0.15` rad of the aim angle, and its own power scaling
`0.9 + rand(4i+1) * 0.2`, between 90% and 110% of the scaled aim power;
every shot has type `"uzi"` (hence takes the standard non-grenade path
of the projectile updater) and the catalog marks the uzi non-bouncing. -/
theorem fireWeapon_uzi_burst (s : GameState) (rand : ℕ → ℝ) (c : Character)
    (hc : s.characters.get? s.currentPlayer = some c)
    (hphase : s.gamePhase = Phase.aiming)
    (huzi : s.selectedWeapon = "uzi")
    (hr : ∀ i, 0 ≤ rand i ∧ rand i < 1) :
    (fireWeapon s rand).spawns.length = 5 ∧
    (fireWeapon s rand).turnDelay = some 4000 ∧
    (fireWeapon s rand).state = { s with gamePhase := Phase.firing } ∧
    (Option.map Weapon.bounces (weaponFind "uzi") = some false) ∧
    (∀ i, i < 5 →
      (fireWeapon s rand).spawns.get? i = some (80 * i,
        { x := c.x + (rand (4 * i + 2) - 0.5) * 4
          y := c.y - 10 + (rand (4 * i + 3) - 0.5) * 2
          vx := Real.cos (s.angle * Real.pi / 180 + (rand (4 * i) - 0.5) * 0.3) *
            (s.power / 100 * 25) * (0.9 + rand (4 * i + 1) * 0.2)
          vy := -Real.sin (s.angle * Real.pi / 180 + (rand (4 * i) - 0.5) * 0.3) *
            (s.power / 100 * 25) * (0.9 + rand (4 * i + 1) * 0.2)
          type := "uzi"
          team := c.team
          active := true
          bounces := 0
          fuseTime := 0 }) ∧
      -0.15 ≤ (rand (4 * i) - 0.5) * 0.3 ∧ (rand (4 * i) - 0.5) * 0.3 ≤ 0.15 ∧
      0.9 ≤ 0.9 + rand (4 * i + 1) * 0.2 ∧
      0.9 + rand (4 * i + 1) * 0.2 ≤ 1.1) := by
  have hfire : fireWeapon s rand =
      ⟨{ s with gamePhase := Phase.firing },
        (List.range 5).map fun i =>
          ((80 * i,
            { x := c.x + (rand (4 * i + 2) - 0.5) * 4
              y := c.y - 10 + (rand (4 * i + 3) - 0.5) * 2
              vx := Real.cos (s.angle * Real.pi / 180 +
                  (rand (4 * i) - 0.5) * 0.3) *
                (s.power / 100 * 25) * (0.9 + rand (4 * i + 1) * 0.2)
              vy := -Real.sin (s.angle * Real.pi / 180 +
                  (rand (4 * i) - 0.5) * 0.3) *
                (s.power / 100 * 25) * (0.9 + rand (4 * i + 1) * 0.2)
              type := "uzi"
              team := c.team
              active := true
              bounces := 0
              fuseTime := 0 }) : ℕ × Projectile),
        some 4000⟩ := by
    unfold fireWeapon
    rw [hc]
    dsimp only
    rw [if_neg (by rw [hphase]; simp), if_pos huzi, huzi]
    have hfuse : weaponFuse "uzi" = 0 := rfl
    rw [hfuse]
  refine ⟨by rw [hfire]; simp, by rw [hfire], by rw [hfire], rfl, ?_⟩
  intro i hi
  obtain ⟨h0, h1⟩ := hr (4 * i)
  obtain ⟨h2, h3⟩ := hr (4 * i + 1)
  refine ⟨?_, by linarith, by linarith, by linarith, by linarith⟩
  rw [hfire]
  dsimp only
  rw [List.get?_map, List.get?_range hi, Option.map_some']

/-- C6 witness: in the concrete aiming state with the uzi selected and
the random oracle constantly 1/2, the rich variant schedules exactly 5
shots with turn advance after 4000 ms, and the first scheduled shot has
delay 0 with type `"uzi"`. -/
theorem fireWeapon_uzi_burst_witness :
    (fireWeapon stateAimUzi (fun _ => 1 / 2)).spawns.length = 5 ∧
    (fireWeapon stateAimUzi (fun _ => 1 / 2)).turnDelay = some 4000 ∧
    ∃ pr, (fireWeapon stateAimUzi (fun _ => 1 / 2)).spawns.get? 0 =
      some (0, pr) ∧ pr.type = "uzi" := by
  obtain ⟨hlen, hdelay, -, -, hshots⟩ := fireWeapon_uzi_burst
    stateAimUzi (fun _ => 1 / 2) charA (by simp [stateAimUzi, stateW]) rfl rfl
    (fun i => ⟨by norm_num, by norm_num⟩)
  obtain ⟨hget, -⟩ := hshots 0 (by norm_num)
  exact ⟨hlen, hdelay, _, hget, rfl⟩

/-- Helper: with a positive fuse and no bounce-triggering surface, one
rich-variant grenade tick is exactly the bounce-free flight tick, with
no explosion. -/
theorem grenadeStep_noBounce (wind : ℝ) (terrain : List ℝ) (p : Projectile)
    (hfuse : 0 < p.fuseTime) (hnb : noBounceAt wind terrain p) :
    grenadeStep wind terrain p = (grenadeFlight wind p, none) := by
  obtain ⟨h1, h2, h3, h4⟩ := hnb
  have hwall : ¬(p.x + (p.vx + wind * 0.02) ≤ 0 ∨
      1000 ≤ p.x + (p.vx + wind * 0.02)) := by
    push_neg
    exact ⟨h1, h2⟩
  have htop : ¬(p.y + (p.vy + 0.5) ≤ 0) := not_le.mpr h3
  have hground : ¬(getTerrainHeight (p.x + (p.vx + wind * 0.02)) terrain - 5 ≤
      p.y + (p.vy + 0.5)) := not_le.mpr h4
  unfold grenadeStep
  rw [if_neg (not_le.mpr hfuse)]
  dsimp only
  rw [if_neg hwall, if_neg hwall, if_neg htop, if_neg htop,
    if_neg hground, if_neg hground, if_neg hground]
  rfl

/-- Helper: a rich-variant grenade tick at expired fuse deactivates the
grenade and explodes at its current position, with no movement. -/
theorem grenadeStep_expired (wind : ℝ) (terrain : List ℝ) (p : Projectile)
    (hfuse : p.fuseTime ≤ 0) :
    grenadeStep wind terrain p =
      ({ p with active := false }, some (p.x, p.y)) := by
  unfold grenadeStep
  rw [if_pos hfuse]

/-- Helper: with no bounce-triggering surface, one simple-variant grenade
tick is the bounce-free flight tick, exploding at the post-move position
exactly when the decremented fuse reaches 0. -/
theorem grenadeStepGA_noBounce (wind : ℝ) (terrain : List ℝ)
    (p : Projectile) (hnb : noBounceAt wind terrain p) :
    grenadeStepGA wind terrain p =
      if p.fuseTime - 1 ≤ 0 then
        ({ grenadeFlight wind p with active := false },
          some ((ballistic wind p).x, (ballistic wind p).y))
      else (grenadeFlight wind p, none) := by
  obtain ⟨h1, h2, h3, h4⟩ := hnb
  have hwall : ¬(p.x + (p.vx + wind * 0.02) ≤ 0 ∨
      1000 ≤ p.x + (p.vx + wind * 0.02)) := by
    push_neg
    exact ⟨h1, h2⟩
  have htop : ¬(p.y + (p.vy + 0.5) ≤ 0) := not_le.mpr h3
  have hground : ¬(getTerrainHeight (p.x + (p.vx + wind * 0.02)) terrain - 5 ≤
      p.y + (p.vy + 0.5)) := not_le.mpr h4
  unfold grenadeStepGA
  dsimp only
  rw [if_neg hwall, if_neg hwall, if_neg htop, if_neg htop,
    if_neg hground, if_neg hground, if_neg hground]
  by_cases hfuse : p.fuseTime - 1 ≤ 0
  · rw [if_pos hfuse, if_pos hfuse]
    rfl
  · rw [if_neg hfuse, if_neg hfuse]
    rfl

/-- Helper: the bounce-free flight preserves the `active` flag and
decrements the fuse by one per tick. -/
theorem grenadeFlight_iterate (wind : ℝ) (p : Projectile) :
    ∀ k : ℕ, ((grenadeFlight wind)^[k] p).active = p.active ∧
      ((grenadeFlight wind)^[k] p).fuseTime = p.fuseTime - k := by
  intro k
  induction k with
  | zero => simp
  | succ n ih =>
    rw [Function.iterate_succ_apply']
    obtain ⟨iha, ihf⟩ := ih
    constructor
    · show ((grenadeFlight wind)^[n] p).active = p.active
      exact iha
    · show ((grenadeFlight wind)^[n] p).fuseTime - 1 = p.fuseTime - (n + 1)
      rw [ihf]
      ring

/-- Helper: while the fuse is positive and no bounce-triggering surface
is met, the rich-variant grenade run coincides with the bounce-free
flight. -/
theorem grenadeRun_eq_flight (wind : ℝ) (terrain : List ℝ) (p : Projectile)
    (hfuse : p.fuseTime = 180)
    (H : ∀ k < 180, noBounceAt wind terrain ((grenadeFlight wind)^[k] p)) :
    ∀ k ≤ 180, grenadeRun wind terrain k p = (grenadeFlight wind)^[k] p := by
  intro k
  induction k with
  | zero => intro _; rfl
  | succ n ih =>
    intro hn
    have hle : n ≤ 180 := by omega
    have hlt : n < 180 := by omega
    show (fun q => (grenadeStep wind terrain q).1)^[n + 1] p = _
    rw [Function.iterate_succ_apply']
    have hrec : (fun q => (grenadeStep wind terrain q).1)^[n] p =
        (grenadeFlight wind)^[n] p := ih hle
    rw [hrec]
    have hfn : 0 < ((grenadeFlight wind)^[n] p).fuseTime := by
      rw [(grenadeFlight_iterate wind p n).2, hfuse]
      omega
    rw [Function.iterate_succ_apply']
    show (grenadeStep wind terrain ((grenadeFlight wind)^[n] p)).1 = _
    rw [grenadeStep_noBounce wind terrain _ hfn (H n hlt)]

/-- Helper: while the decremented fuse stays positive and no
bounce-triggering surface is met, the simple-variant grenade run
coincides with the bounce-free flight. -/
theorem grenadeRunGA_eq_flight (wind : ℝ) (terrain : List ℝ)
    (p : Projectile) (hfuse : p.fuseTime = 180)
    (H : ∀ k < 180, noBounceAt wind terrain ((grenadeFlight wind)^[k] p)) :
    ∀ k ≤ 179, grenadeRunGA wind terrain k p = (grenadeFlight wind)^[k] p := by
  intro k
  induction k with
  | zero => intro _; rfl
  | succ n ih =>
    intro hn
    have hle : n ≤ 179 := by omega
    have hlt : n < 180 := by omega
    show (fun q => (grenadeStepGA wind terrain q).1)^[n + 1] p = _
    rw [Function.iterate_succ_apply']
    have hrec : (fun q => (grenadeStepGA wind terrain q).1)^[n] p =
        (grenadeFlight wind)^[n] p := ih hle
    rw [hrec]
    have hfn : ¬ ((grenadeFlight wind)^[n] p).fuseTime - 1 ≤ 0 := by
      rw [(grenadeFlight_iterate wind p n).2, hfuse]
      omega
    rw [Function.iterate_succ_apply']
    show (grenadeStepGA wind terrain ((grenadeFlight wind)^[n] p)).1 = _
    rw [grenadeStepGA_noBounce wind terrain _ (H n hlt), if_neg hfn]

/-- C3 (amended): a grenade launched with `fuseTime = 180` that meets no
bounce-triggering surface during its 180-tick flight.  In the simple
variant (fuse decremented after the tick's physics) the grenade stays
active through ticks 1–179 and its explosion — deactivation together
with the terrain-erosion/damage position — happens during tick 180, at
the position reached by that tick's move.  In the rich variant (fuse
checked before the tick's physics) the grenade is still active after
180 ticks and explodes at the start of tick 181, before any further
movement.  Both variants explode at the same position, the one reached
after 180 ballistic updates. -/
theorem grenade_fuse_timing (wind : ℝ) (terrain : List ℝ) (p : Projectile)
    (hactive : p.active = true) (hfuse : p.fuseTime = 180)
    (H : ∀ k < 180, noBounceAt wind terrain ((grenadeFlight wind)^[k] p)) :
    (∀ k < 180, (grenadeRunGA wind terrain k p).active = true) ∧
    (grenadeRunGA wind terrain 180 p).active = false ∧
    (grenadeStepGA wind terrain (grenadeRunGA wind terrain 179 p)).2 =
      some ((grenadeRunGA wind terrain 180 p).x,
            (grenadeRunGA wind terrain 180 p).y) ∧
    (∀ k < 179,
      (grenadeStepGA wind terrain (grenadeRunGA wind terrain k p)).2 =
        none) ∧
    (∀ k ≤ 180, (grenadeRun wind terrain k p).active = true) ∧
    (∀ k < 180,
      (grenadeStep wind terrain (grenadeRun wind terrain k p)).2 = none) ∧
    (grenadeStep wind terrain (grenadeRun wind terrain 180 p)).2 =
      some ((grenadeRun wind terrain 180 p).x,
            (grenadeRun wind terrain 180 p).y) ∧
    (grenadeStep wind terrain (grenadeRun wind terrain 180 p)).1.active =
      false ∧
    (grenadeRun wind terrain 180 p).x = (grenadeRunGA wind terrain 180 p).x ∧
    (grenadeRun wind terrain 180 p).y = (grenadeRunGA wind terrain 180 p).y := by
  have eqGA := grenadeRunGA_eq_flight wind terrain p hfuse H
  have eqR := grenadeRun_eq_flight wind terrain p hfuse H
  have ffuse : ∀ k : ℕ, ((grenadeFlight wind)^[k] p).fuseTime =
      180 - (k : ℤ) := by
    intro k
    rw [(grenadeFlight_iterate wind p k).2, hfuse]
  have factive : ∀ k : ℕ, ((grenadeFlight wind)^[k] p).active = true := by
    intro k
    rw [(grenadeFlight_iterate wind p k).1, hactive]
  have hstep179 :
      grenadeStepGA wind terrain ((grenadeFlight wind)^[179] p) =
        ({ grenadeFlight wind ((grenadeFlight wind)^[179] p) with
            active := false },
          some ((ballistic wind ((grenadeFlight wind)^[179] p)).x,
                (ballistic wind ((grenadeFlight wind)^[179] p)).y)) := by
    rw [grenadeStepGA_noBounce wind terrain _ (H 179 (by norm_num))]
    rw [if_pos (by rw [ffuse 179]; norm_num)]
  have hGA180 : grenadeRunGA wind terrain 180 p =
      { grenadeFlight wind ((grenadeFlight wind)^[179] p) with
          active := false } := by
    show (fun q => (grenadeStepGA wind terrain q).1)^[180] p = _
    rw [show (180 : ℕ) = 179 + 1 by norm_num, Function.iterate_succ_apply']
    show (grenadeStepGA wind terrain (grenadeRunGA wind terrain 179 p)).1 = _
    rw [eqGA 179 (by norm_num), hstep179]
  have hB180 : (grenadeFlight wind)^[180] p =
      grenadeFlight wind ((grenadeFlight wind)^[179] p) := by
    rw [show (180 : ℕ) = 179 + 1 by norm_num, Function.iterate_succ_apply']
  refine ⟨?_, ?_, ?_, ?_, ?_, ?_, ?_, ?_, ?_, ?_⟩
  · intro k hk
    rw [eqGA k (by omega)]
    exact factive k
  · rw [hGA180]
  · rw [eqGA 179 (by norm_num), hstep179, hGA180]
    rfl
  · intro k hk
    rw [eqGA k (by omega),
      grenadeStepGA_noBounce wind terrain _ (H k (by omega)),
      if_neg (by rw [ffuse k]; omega)]
  · intro k hk
    rw [eqR k hk]
    exact factive k
  · intro k hk
    rw [eqR k (by omega),
      grenadeStep_noBounce wind terrain _ (by rw [ffuse k]; omega)
        (H k hk)]
  · rw [eqR 180 (le_refl 180),
      grenadeStep_expired wind terrain _ (by rw [ffuse 180]; norm_num)]
  · rw [eqR 180 (le_refl 180),
      grenadeStep_expired wind terrain _ (by rw [ffuse 180]; norm_num)]
  · rw [eqR 180 (le_refl 180), hGA180, hB180]
  · rw [eqR 180 (le_refl 180), hGA180, hB180]

/-- Evaluation helper: the one-sample terrain of height 1000000 reports
that height at `x = 2`. -/
theorem getTerrainHeight_deep :
    getTerrainHeight 2 [(1000000 : ℝ)] = 1000000 := by
  unfold getTerrainHeight
  rw [dif_pos (⟨by norm_num, by norm_num⟩ :
    0 ≤ ⌊(2 : ℝ) / 5⌋ ∧ (⌊(2 : ℝ) / 5⌋).toNat < [(1000000 : ℝ)].length)]
  dsimp only
  rw [List.get_singleton]
  rw [if_neg (by norm_num : ¬((1000000 : ℝ) = 0))]

/-- Evaluation helper: closed form of the bounce-free flight of the
concrete witness grenade (wind 0, no horizontal velocity). -/
theorem grenadeW_flight (k : ℕ) :
    (grenadeFlight 0)^[k] grenadeW =
      { x := 2, y := 1 + (k : ℝ) * ((k : ℝ) + 1) / 4, vx := 0,
        vy := (k : ℝ) / 2, type := "grenade", team := Team.vegan,
        active := true, bounces := 0, fuseTime := 180 - (k : ℤ) } := by
  induction k with
  | zero =>
    show grenadeW = _
    unfold grenadeW
    simp only [Projectile.mk.injEq]
    norm_num
  | succ n ih =>
    rw [Function.iterate_succ_apply', ih]
    unfold grenadeFlight ballistic
    simp only [Projectile.mk.injEq]
    exact ⟨by ring, by push_cast; ring, by ring, by push_cast; ring,
      trivial, trivial, trivial, trivial, by push_cast; ring⟩

/-- Evaluation helper: the witness grenade meets no bounce-triggering
surface during its 180-tick flight inside the deep one-sample terrain. -/
theorem grenadeW_noBounce :
    ∀ k < 180, noBounceAt 0 [(1000000 : ℝ)] ((grenadeFlight 0)^[k] grenadeW) := by
  intro k hk
  rw [grenadeW_flight k]
  have hk179 : (k : ℝ) ≤ 179 := by
    exact_mod_cast Nat.le_of_lt_succ hk
  have hk0 : (0 : ℝ) ≤ (k : ℝ) := Nat.cast_nonneg k
  unfold noBounceAt ballistic
  dsimp only
  have hx : (2 : ℝ) + (0 + 0 * 0.02) = 2 := by ring
  rw [hx]
  refine ⟨by norm_num, by norm_num, ?_, ?_⟩
  · positivity
  · rw [getTerrainHeight_deep]
    nlinarith

/-- C3 witness: the concrete grenade (fuse 180, dropped at rest inside
the deep terrain, wind 0): after 180 ticks the simple variant has
deactivated it while the rich variant still has it active, its explosion
in the rich variant happens at the start of the next tick at its
unmoved position, and both variants place the explosion at the same
point. -/
theorem grenade_fuse_timing_witness :
    (grenadeRunGA 0 [(1000000 : ℝ)] 180 grenadeW).active = false ∧
    (grenadeRun 0 [(1000000 : ℝ)] 180 grenadeW).active = true ∧
    (grenadeStep 0 [(1000000 : ℝ)]
        (grenadeRun 0 [(1000000 : ℝ)] 180 grenadeW)).2 =
      some ((grenadeRun 0 [(1000000 : ℝ)] 180 grenadeW).x,
            (grenadeRun 0 [(1000000 : ℝ)] 180 grenadeW).y) ∧
    (grenadeRun 0 [(1000000 : ℝ)] 180 grenadeW).x =
      (grenadeRunGA 0 [(1000000 : ℝ)] 180 grenadeW).x := by
  obtain ⟨-, hb, -, -, he, -, hg, -, hx, -⟩ :=
    grenade_fuse_timing 0 [(1000000 : ℝ)] grenadeW rfl rfl grenadeW_noBounce
  exact ⟨hb, he 180 (le_refl 180), hg, hx⟩

/-- C3 counterexample: in the rich variant the concrete never-bouncing
grenade launched with fuse 180 is still active after 180 simulation
ticks — its explosion (deactivation, erosion and damage) has not yet
happened; it is delivered by the 181st tick, without further movement,
at the position reached after 180 ticks. -/
theorem grenade_not_exploded_at_180_rich :
    (grenadeRun 0 [(1000000 : ℝ)] 180 grenadeW).active = true ∧
    (grenadeStep 0 [(1000000 : ℝ)]
        (grenadeRun 0 [(1000000 : ℝ)] 180 grenadeW)).1.active = false ∧
    (grenadeStep 0 [(1000000 : ℝ)]
        (grenadeRun 0 [(1000000 : ℝ)] 180 grenadeW)).2 =
      some ((grenadeRun 0 [(1000000 : ℝ)] 180 grenadeW).x,
            (grenadeRun 0 [(1000000 : ℝ)] 180 grenadeW).y) := by
  have heq := grenadeRun_eq_flight 0 [(1000000 : ℝ)] grenadeW rfl
    grenadeW_noBounce 180 (le_refl 180)
  have hfuse0 : ((grenadeFlight 0)^[180] grenadeW).fuseTime ≤ 0 := by
    rw [(grenadeFlight_iterate 0 grenadeW 180).2]
    decide
  refine ⟨?_, ?_, ?_⟩
  · rw [heq, (grenadeFlight_iterate 0 grenadeW 180).1]
    rfl
  · rw [heq, grenadeStep_expired 0 [(1000000 : ℝ)] _ hfuse0]
  · rw [heq, grenadeStep_expired 0 [(1000000 : ℝ)] _ hfuse0]

end Worms
